import Mathlib

/-!
# Verification of the expense-report edit/approval workflow

Shallow embedding of the core logic of the `ReportDetail` page and the
expense-submission form of the expense-report application:

* money helpers (`handleAmountChange`-style digit parsing with clamping,
  `formatAsCurrency`/`formatCurrency` locale rendering),
* the in-memory expense item entity with its edit-session flags,
* the edit-session operations (`addEditedExpense`, `updateEditedExpense`,
  `removeEditedExpense`),
* the save-time reconciliation of the edited item list
  (`itemsToDelete` / `itemsToUpdate` / `itemsToInsert`), the recomputed
  total, the status transition, and the notification trigger of
  `handleSaveChanges`,
* the permission predicates `canEdit`, `canDelete`, `canApproveReject`
  and the handlers `handleDeleteReport` and `handleUpdateStatus`.

Amounts are modelled in integer cents throughout, as in the frontend edit
state.  The database stores dollars (`amount / 100`); since every amount is
an integer number of cents that conversion is an exact change of unit, so
the persisted rows are modelled carrying their cent values.
-/

namespace ExpenseReportApp

/-- Report status: the `status` column takes exactly the three values
`submitted`, `approved`, `rejected`. -/
inductive Status where
  | submitted
  | approved
  | rejected
deriving DecidableEq, Repr

/-- The `expenses` row as fetched by `ReportDetail`
(`id, created_at, total_amount, status, user_id`).  `total_amount` is held
in cents. -/
structure Report where
  id : String
  created_at : Nat
  total_amountCents : Nat
  status : Status
  user_id : String
deriving DecidableEq, Repr

/-- The frontend `ExpenseItem` interface of `ReportDetail`: a frontend
temporary `id`, the expense fields, the transient edit-session flags
`isNew` / `isDeleted` (optional booleans in the source, `undefined`
meaning absent, hence `Bool` here), and the persisted database id `db_id`
(optional).  `amount` is in cents, as in the edit state. -/
structure ExpenseItem where
  id : String
  date : Nat
  amount : Nat
  category : String
  description : Option String
  receipt_url : Option String
  isNew : Bool
  isDeleted : Bool
  db_id : Option String
deriving DecidableEq, Repr

/-! ## Money helpers -/

/-- The cap enforced by `handleAmountChange` / `handleEditedAmountChange`:
100,000,000 cents = $1,000,000.00. -/
def MAX_CENTS : Nat := 100000000

/-- `value.replace(/\D/g, '')`: keep only the digit characters. -/
def digitsOnly (s : String) : List Char :=
  s.data.filter Char.isDigit

/-- `parseInt` on a digit string (`parseInt(digitsOnly || '0', 10)`):
left-to-right decimal accumulation; the empty string yields 0. -/
def digitsVal (l : List Char) : Nat :=
  l.foldl (fun a c => a * 10 + (c.toNat - 48)) 0

/-- The parsing-with-clamp performed by `handleAmountChange` (submission
form) and `handleEditedAmountChange` (report detail): strip every
non-digit character, read the remaining digits as a cents value, and clamp
anything above `MAX_CENTS` down to `MAX_CENTS`.  This is the
`parseCurrencyInput` operation of the money helper. -/
def parseCurrencyInput (s : String) : Nat :=
  let v := digitsVal (digitsOnly s)
  if v > MAX_CENTS then MAX_CENTS else v

/-- Decimal digit `d` (`0 ≤ d ≤ 9`) as a character. -/
def digitChar (d : Nat) : Char := Char.ofNat (48 + d)

/-- Decimal digits of `n`, most significant first (at least one digit). -/
def natDigits (n : Nat) : List Char :=
  if _h : n < 10 then [digitChar n]
  else natDigits (n / 10) ++ [digitChar (n % 10)]
decreasing_by exact Nat.div_lt_self (by omega) (by omega)

/-- Insert a thousands separator after every third character, working on
the reversed digit list (helper for `addCommas`). -/
def commaRev : List Char → Nat → List Char
  | [], _ => []
  | c :: cs, k =>
    if k = 3 then ',' :: c :: commaRev cs 1
    else c :: commaRev cs (k + 1)

/-- `en-US` thousands grouping of a digit string. -/
def addCommas (l : List Char) : List Char :=
  (commaRev l.reverse 0).reverse

/-- The rendering performed by `formatAsCurrency` (submission form) and
`formatCurrency` (report detail): `(cents / 100).toLocaleString('en-US',
{style: 'currency', currency: 'USD'})`, i.e. a dollar sign, the dollar
part with `en-US` thousands separators, and exactly two fractional digits.
This is the `formatCents` operation of the money helper. -/
def formatCents (c : Nat) : String :=
  ⟨'$' :: (addCommas (natDigits (c / 100)) ++
    '.' :: digitChar (c % 100 / 10) :: [digitChar (c % 100 % 10)])⟩

/-! ## Reconciliation (`handleSaveChanges`, steps 1–4) -/

/-- `editedItems.filter(item => item.isDeleted && item.db_id)`:
the items marked deleted that have a persisted id. -/
def toDelete (edited : List ExpenseItem) : List ExpenseItem :=
  edited.filter fun it => it.isDeleted && it.db_id.isSome

/-- `editedItems.filter(item => !item.isNew && !item.isDeleted && item.db_id)`:
the persisted, unflagged items, rewritten in full on save. -/
def toUpdate (edited : List ExpenseItem) : List ExpenseItem :=
  edited.filter fun it => !it.isNew && !it.isDeleted && it.db_id.isSome

/-- `editedItems.filter(item => item.isNew && !item.isDeleted)`:
the items added this session and not removed again. -/
def toInsert (edited : List ExpenseItem) : List ExpenseItem :=
  edited.filter fun it => it.isNew && !it.isDeleted

/-- `reduce((sum, item) => sum + item.amount, 0)` over an item list. -/
def amountSum (l : List ExpenseItem) : Nat :=
  l.foldl (fun s it => s + it.amount) 0

/-- The recomputed report total of `handleSaveChanges` step 4:
the amounts of all edited items with `isDeleted == false`, summed. -/
def newTotalCents (edited : List ExpenseItem) : Nat :=
  amountSum (edited.filter fun it => !it.isDeleted)

/-! ## Edit-session operations -/

/-- The first entry of the `categories` array of `ReportDetail`
(`categories[0]`), the default category of a freshly added item. -/
def defaultCategory : String := "Airfare"

/-- `addEditedExpense`: append a fresh item with a new frontend id,
the current date, amount 0 cents, the default category, an empty
description, the `isNew` flag set, and no persisted id. -/
def addEditedExpense (l : List ExpenseItem) (freshId : String) (now : Nat) :
    List ExpenseItem :=
  l ++ [{ id := freshId, date := now, amount := 0, category := defaultCategory,
          description := some "", receipt_url := none,
          isNew := true, isDeleted := false, db_id := none }]

/-- The partial update object passed to `updateEditedExpense` by its call
sites (date picker, amount input, category select, description input,
receipt upload): each field is either absent or a replacement value.  The
call sites never touch `id`, `db_id` or the session flags. -/
structure ItemUpdate where
  date : Option Nat := none
  amount : Option Nat := none
  category : Option String := none
  description : Option (Option String) := none
  receipt_url : Option (Option String) := none
deriving DecidableEq, Repr

/-- `{ ...item, ...updates }` followed by the category rule of
`updateEditedExpense`: if the update carries a (truthy, i.e. non-empty)
category other than `'Other'`, the description is cleared to `''`. -/
def applyUpdate (it : ExpenseItem) (u : ItemUpdate) : ExpenseItem :=
  let it1 : ExpenseItem :=
    { it with
      date := u.date.getD it.date,
      amount := u.amount.getD it.amount,
      category := u.category.getD it.category,
      description := u.description.getD it.description,
      receipt_url := u.receipt_url.getD it.receipt_url }
  match u.category with
  | some c => if c ≠ "" ∧ c ≠ "Other" then { it1 with description := some "" } else it1
  | none => it1

/-- `updateEditedExpense`: map over the edited list, merging the partial
update into the item whose frontend id matches. -/
def updateEditedExpense (l : List ExpenseItem) (id : String) (u : ItemUpdate) :
    List ExpenseItem :=
  l.map fun it => if it.id = id then applyUpdate it u else it

/-- `removeEditedExpense`: an item added this session (`isNew`) is dropped
from the list outright (`null`, then filtered out); a persisted item is
kept and marked `isDeleted`. -/
def removeEditedExpense (l : List ExpenseItem) (id : String) : List ExpenseItem :=
  l.filterMap fun it =>
    if it.id = id then
      if it.isNew then none else some { it with isDeleted := true }
    else some it

/-- An edit session over a report: the edited list starts as the fetched
item list (every fetched item has its database id in `db_id` and carries
neither session flag) and evolves by the three session operations.
`EditSession base l` says `l` is reachable from the fetched baseline
`base`. -/
inductive EditSession : List ExpenseItem → List ExpenseItem → Prop where
  | init (base : List ExpenseItem)
      (hbase : ∀ it ∈ base,
        it.isNew = false ∧ it.isDeleted = false ∧ it.db_id.isSome = true) :
      EditSession base base
  | add {base l : List ExpenseItem} (freshId : String) (now : Nat) :
      EditSession base l → EditSession base (addEditedExpense l freshId now)
  | update {base l : List ExpenseItem} (id : String) (u : ItemUpdate) :
      EditSession base l → EditSession base (updateEditedExpense l id u)
  | remove {base l : List ExpenseItem} (id : String) :
      EditSession base l → EditSession base (removeEditedExpense l id)

/-! ## Permission predicates (`ReportDetail`, lines 366–368) -/

/-- `canEdit = !userLoading && (isAdmin || (report.user_id === user.id &&
(report.status === 'submitted' || report.status === 'rejected')))`. -/
def canEdit (userLoading isAdmin : Bool) (uid : String) (r : Report) : Bool :=
  !userLoading && (isAdmin ||
    (decide (r.user_id = uid) &&
      (decide (r.status = Status.submitted) || decide (r.status = Status.rejected))))

/-- `canDelete = !userLoading && !isAdmin && report.user_id === user.id &&
(report.status === 'submitted' || report.status === 'rejected')`. -/
def canDelete (userLoading isAdmin : Bool) (uid : String) (r : Report) : Bool :=
  !userLoading && !isAdmin &&
    decide (r.user_id = uid) &&
    (decide (r.status = Status.submitted) || decide (r.status = Status.rejected))

/-- `canApproveReject = !userLoading && isAdmin && report.status === 'submitted'`. -/
def canApproveReject (userLoading isAdmin : Bool) (r : Report) : Bool :=
  !userLoading && isAdmin && decide (r.status = Status.submitted)

/-! ## The save operation (`handleSaveChanges`) -/

/-- A row sent to the `upsert` of `handleSaveChanges` step 2: the full-row
replacement of a persisted item.  The source sends `amount / 100` dollars;
the cent value is carried here (an exact change of unit).  The description
is nulled unless the category is the sentinel `'Other'`. -/
structure UpdateRow where
  id : String
  date : Nat
  amountCents : Nat
  category : String
  description : Option String
  receipt_url : Option String
deriving DecidableEq, Repr

/-- A row sent to the `insert` of `handleSaveChanges` step 3. -/
structure InsertRow where
  expense_id : String
  date : Nat
  amountCents : Nat
  category : String
  description : Option String
  receipt_url : Option String
deriving DecidableEq, Repr

/-- The update row built from an item of `itemsToUpdate` (its `db_id` is
present by the filter; `getD` extracts it). -/
def updateRow (it : ExpenseItem) : UpdateRow :=
  { id := it.db_id.getD "", date := it.date, amountCents := it.amount,
    category := it.category,
    description := if it.category = "Other" then it.description else none,
    receipt_url := it.receipt_url }

/-- The insert row built from an item of `itemsToInsert`. -/
def insertRow (expenseId : String) (it : ExpenseItem) : InsertRow :=
  { expense_id := expenseId, date := it.date, amountCents := it.amount,
    category := it.category,
    description := if it.category = "Other" then it.description else none,
    receipt_url := it.receipt_url }

/-- The persistence calls a save issues: the deleted item ids (step 1),
the upserted full rows (step 2), the inserted rows (step 3), and the
report update with the recomputed total and the new status (step 4). -/
structure SaveCalls where
  deletedIds : List String
  updatedRows : List UpdateRow
  insertedRows : List InsertRow
  reportUpdate : Option (Nat × Status)
deriving DecidableEq, Repr

/-- Result of `handleSaveChanges`: `blocked` is the early
`if (!user || !report || !canEdit) return;` (nothing is performed), and
`ok` carries the issued persistence calls, the persisted total and status,
the report id passed to the notification collaborator when it is invoked,
and whether a non-fatal notification warning was attached. -/
inductive SaveResult where
  | blocked
  | ok (calls : SaveCalls) (finalTotalCents : Nat) (finalStatus : Status)
      (notifyInvoked : Option String) (warningAttached : Bool)
deriving DecidableEq, Repr

/-- `handleSaveChanges`, success path, as a pure function of the acting
principal, the loaded report, the edited item list, and the outcome
`notifyOk` of the external notification call.  Steps 1–3 issue the three
reconciliation sets; step 4 persists `newTotalCents` and
`isAdmin ? report.status : 'submitted'`; step 5 invokes the notification
collaborator with the report id exactly when the actor is a non-admin
owner and the new status is `submitted`, and a failed notification only
attaches a warning (`Report saved, but ...`) — the save itself stays
successful. -/
def handleSaveChanges (userLoading isAdmin : Bool) (uid : String) (r : Report)
    (edited : List ExpenseItem) (notifyOk : Bool) : SaveResult :=
  if !(canEdit userLoading isAdmin uid r) then SaveResult.blocked
  else
    let newStatus := if isAdmin then r.status else Status.submitted
    let notify := !isAdmin && decide (r.user_id = uid) &&
      decide (newStatus = Status.submitted)
    SaveResult.ok
      { deletedIds := (toDelete edited).filterMap (fun it => it.db_id),
        updatedRows := (toUpdate edited).map updateRow,
        insertedRows := (toInsert edited).map (insertRow r.id),
        reportUpdate := some (newTotalCents edited, newStatus) }
      (newTotalCents edited) newStatus
      (if notify then some r.id else none)
      (notify && !notifyOk)

/-- Whether the save went through (was not blocked by the guard). -/
def isSaved : SaveResult → Bool
  | SaveResult.blocked => false
  | SaveResult.ok _ _ _ _ _ => true

/-- The persisted status of a completed save. -/
def savedStatus : SaveResult → Option Status
  | SaveResult.blocked => none
  | SaveResult.ok _ _ s _ _ => some s

/-- The persisted total (cents) of a completed save. -/
def savedTotal : SaveResult → Option Nat
  | SaveResult.blocked => none
  | SaveResult.ok _ t _ _ _ => some t

/-- The persistence calls of a completed save. -/
def savedCalls : SaveResult → Option SaveCalls
  | SaveResult.blocked => none
  | SaveResult.ok c _ _ _ _ => some c

/-- The report id the notification collaborator was invoked with, if it
was invoked. -/
def savedNotify : SaveResult → Option String
  | SaveResult.blocked => none
  | SaveResult.ok _ _ _ n _ => n

/-- Whether a non-fatal notification warning was attached to the result. -/
def savedWarning : SaveResult → Bool
  | SaveResult.blocked => false
  | SaveResult.ok _ _ _ _ w => w

/-- The save button's `disabled` condition:
`isSaving || editedItems.filter(i => !i.isDeleted).length === 0`. -/
def saveButtonDisabled (isSaving : Bool) (edited : List ExpenseItem) : Bool :=
  isSaving || decide ((edited.filter fun it => !it.isDeleted).length = 0)

/-! ## Delete and approve/reject handlers -/

/-- Result of `handleDeleteReport`: either nothing happens (guard or
cancelled confirmation) or the report row is deleted. -/
inductive DeleteResult where
  | noAction
  | deleted (id : String)
deriving DecidableEq, Repr

/-- `handleDeleteReport`: the guard
`if (!user || !report || !canDelete) return;` blocks any disallowed
attempt; otherwise, after the confirmation prompt, the `expenses` row is
deleted. -/
def handleDeleteReport (userLoading isAdmin : Bool) (uid : String) (r : Report)
    (confirmed : Bool) : DeleteResult :=
  if !(canDelete userLoading isAdmin uid r) then DeleteResult.noAction
  else if !confirmed then DeleteResult.noAction
  else DeleteResult.deleted r.id

/-- Result of `handleUpdateStatus`: the early return on a failed
`canApproveReject` check is the permission-denied outcome (the action is
refused and nothing is mutated); otherwise the report's status is set. -/
inductive StatusResult where
  | permissionDenied
  | updated (r : Report)
deriving DecidableEq, Repr

/-- `handleUpdateStatus`: `if (!canApproveReject || !report) return;`,
then `update({ status: newStatus })` on the report row. -/
def handleUpdateStatus (userLoading isAdmin : Bool) (r : Report)
    (newStatus : Status) : StatusResult :=
  if !(canApproveReject userLoading isAdmin r) then StatusResult.permissionDenied
  else StatusResult.updated { r with status := newStatus }

/-! ## Concrete fixtures

A persisted baseline item and reports used to instantiate the theorems on
concrete inputs. -/

/-- A persisted item as fetched from the database: 500 cents, no session
flags, database id `"db1"`. -/
def fixtureItem : ExpenseItem :=
  { id := "f1", date := 1, amount := 500, category := "Lodging",
    description := none, receipt_url := none,
    isNew := false, isDeleted := false, db_id := some "db1" }

/-- The fixture item marked deleted in the edit session. -/
def fixtureDeletedItem : ExpenseItem := { fixtureItem with isDeleted := true }

/-- A rejected report owned by `"u1"`. -/
def fixtureReport : Report :=
  { id := "r1", created_at := 0, total_amountCents := 500,
    status := Status.rejected, user_id := "u1" }

/-- The fixture report with status `approved`. -/
def fixtureReportApproved : Report := { fixtureReport with status := Status.approved }

/-! ## Lemmas about the money helpers -/

theorem digitChar_isDigit (d : Nat) (h : d < 10) : (digitChar d).isDigit = true := by
  interval_cases d <;> decide

theorem digitChar_toNat (d : Nat) (h : d < 10) : (digitChar d).toNat = 48 + d := by
  interval_cases d <;> decide

theorem digitsVal_append (l : List Char) (c : Char) :
    digitsVal (l ++ [c]) = digitsVal l * 10 + (c.toNat - 48) := by
  simp [digitsVal, List.foldl_append]

theorem digitsVal_natDigits (n : Nat) : digitsVal (natDigits n) = n := by
  induction n using Nat.strong_induction_on with
  | _ n ih =>
    rw [natDigits]
    split
    · next h =>
      simp [digitsVal, digitChar_toNat n h]
    · next h =>
      rw [digitsVal_append, ih (n / 10) (Nat.div_lt_self (by omega) (by omega)),
        digitChar_toNat (n % 10) (Nat.mod_lt n (by omega))]
      omega

theorem natDigits_all_digits (n : Nat) : ∀ c ∈ natDigits n, c.isDigit = true := by
  induction n using Nat.strong_induction_on with
  | _ n ih =>
    rw [natDigits]
    split
    · next h =>
      intro c hc
      simp only [List.mem_singleton] at hc
      subst hc
      exact digitChar_isDigit n h
    · next h =>
      intro c hc
      rw [List.mem_append] at hc
      rcases hc with h1 | h2
      · exact ih (n / 10) (Nat.div_lt_self (by omega) (by omega)) c h1
      · simp only [List.mem_singleton] at h2
        subst h2
        exact digitChar_isDigit _ (Nat.mod_lt n (by omega))

theorem filter_commaRev :
    ∀ (l : List Char) (k : Nat), (∀ c ∈ l, c.isDigit = true) →
      (commaRev l k).filter Char.isDigit = l := by
  intro l
  induction l with
  | nil => intro k _; simp [commaRev]
  | cons c cs ih =>
    intro k hl
    have hc : c.isDigit = true := hl c (by simp)
    have hcs : ∀ x ∈ cs, x.isDigit = true := fun x hx => hl x (by simp [hx])
    have hcomma : (',' : Char).isDigit = false := by decide
    rw [commaRev]
    split
    · simp [List.filter_cons, hcomma, hc, ih 1 hcs]
    · simp [List.filter_cons, hc, ih (k + 1) hcs]

theorem filter_addCommas (l : List Char) (hl : ∀ c ∈ l, c.isDigit = true) :
    (addCommas l).filter Char.isDigit = l := by
  unfold addCommas
  rw [List.filter_reverse, filter_commaRev l.reverse 0 (by simpa using hl)]
  exact List.reverse_reverse l

theorem digitsOnly_formatCents (c : Nat) :
    digitsOnly (formatCents c) =
      natDigits (c / 100) ++ [digitChar (c % 100 / 10), digitChar (c % 100 % 10)] := by
  have h1 : (c % 100 / 10) < 10 := by omega
  have h2 : (c % 100 % 10) < 10 := by omega
  have hdollar : ('$' : Char).isDigit = false := by decide
  have hdot : ('.' : Char).isDigit = false := by decide
  show (('$' :: (addCommas (natDigits (c / 100)) ++
      '.' :: digitChar (c % 100 / 10) :: [digitChar (c % 100 % 10)])).filter
        Char.isDigit) = _
  rw [List.filter_cons, List.filter_append, List.filter_cons, List.filter_cons,
    List.filter_cons]
  simp only [hdollar, hdot, digitChar_isDigit _ h1, digitChar_isDigit _ h2,
    List.filter_nil, filter_addCommas _ (natDigits_all_digits _)]
  simp

theorem parseCurrencyInput_formatCents (c : Nat) (hc : c ≤ MAX_CENTS) :
    parseCurrencyInput (formatCents c) = c := by
  have h1 : (c % 100 / 10) < 10 := by omega
  have h2 : (c % 100 % 10) < 10 := by omega
  have hv : digitsVal (digitsOnly (formatCents c)) = c := by
    rw [digitsOnly_formatCents]
    have : natDigits (c / 100) ++ [digitChar (c % 100 / 10), digitChar (c % 100 % 10)] =
        (natDigits (c / 100) ++ [digitChar (c % 100 / 10)]) ++ [digitChar (c % 100 % 10)] := by
      simp
    rw [this, digitsVal_append, digitsVal_append, digitsVal_natDigits,
      digitChar_toNat _ h1, digitChar_toNat _ h2]
    omega
  unfold parseCurrencyInput
  rw [hv, if_neg (by omega)]

theorem parseCurrencyInput_le (s : String) : parseCurrencyInput s ≤ MAX_CENTS := by
  unfold parseCurrencyInput
  dsimp only
  split <;> omega

/-! ## Claim C8: parsing strips non-digits and clamps to `[0, MAX_CENTS]` -/

/-- C8: for every input string, `parseCurrencyInput` strips all non-digit
characters, reads the remaining digit string as a cents value, and clamps
the result to `[0, MAX_CENTS]` with `MAX_CENTS = 100,000,000`; in
particular every entered amount above `MAX_CENTS` is stored as exactly
`MAX_CENTS`.  (The lower bound 0 is inherent: the value is a natural
number.) -/
theorem money_parse_clamps (s : String) :
    parseCurrencyInput s = min (digitsVal (digitsOnly s)) MAX_CENTS
    ∧ parseCurrencyInput s ≤ MAX_CENTS
    ∧ (digitsVal (digitsOnly s) > MAX_CENTS → parseCurrencyInput s = MAX_CENTS) := by
  refine ⟨?_, parseCurrencyInput_le s, ?_⟩ <;>
    · unfold parseCurrencyInput
      dsimp only
      split <;> omega

/-- Witness for C8: the entered amount $2,000,000.00 (200,000,000 cents,
above the cap) is stored as exactly `MAX_CENTS` = $1,000,000.00. -/
theorem money_parse_clamps_witness :
    parseCurrencyInput "$2,000,000.00" = MAX_CENTS :=
  (money_parse_clamps "$2,000,000.00").2.2 (by decide)

/-! ## Claim C9: parsing is idempotent on its own canonical output -/

/-- C9: `parseCurrencyInput (formatCents (parseCurrencyInput s)) =
parseCurrencyInput s` for every input string: formatting a parsed value as
a locale currency string (dollar sign, thousands separators, exactly two
fractional digits) and parsing it again returns the same cents value. -/
theorem money_parse_format_idempotent (s : String) :
    parseCurrencyInput (formatCents (parseCurrencyInput s)) = parseCurrencyInput s :=
  parseCurrencyInput_formatCents _ (parseCurrencyInput_le s)

/-! ## Claim C1: the three reconciliation sets -/

/-- C1: for every edited item list, `toDelete` holds exactly the items
with `isDeleted` and a persisted id, `toInsert` exactly the items with
`isNew` and not `isDeleted`, `toUpdate` exactly the items with neither
flag and a persisted id, and the three sets are pairwise disjoint. -/
theorem reconcile_classification (edited : List ExpenseItem) (it : ExpenseItem) :
    (it ∈ toDelete edited ↔ it ∈ edited ∧ it.isDeleted = true ∧ it.db_id.isSome = true)
    ∧ (it ∈ toInsert edited ↔ it ∈ edited ∧ it.isNew = true ∧ it.isDeleted = false)
    ∧ (it ∈ toUpdate edited ↔
        it ∈ edited ∧ it.isNew = false ∧ it.isDeleted = false ∧ it.db_id.isSome = true)
    ∧ ¬(it ∈ toDelete edited ∧ it ∈ toInsert edited)
    ∧ ¬(it ∈ toDelete edited ∧ it ∈ toUpdate edited)
    ∧ ¬(it ∈ toInsert edited ∧ it ∈ toUpdate edited) := by
  simp only [toDelete, toInsert, toUpdate, List.mem_filter, Bool.and_eq_true,
    Bool.not_eq_true']
  refine ⟨by tauto, by tauto, by tauto, ?_, ?_, ?_⟩ <;>
    · rintro ⟨⟨-, h1⟩, ⟨-, h2⟩⟩
      simp_all

/-- Witness for C1, instantiated at a concrete deleted persisted item. -/
theorem reconcile_classification_witness :
    fixtureDeletedItem ∈ toDelete [fixtureDeletedItem] ↔
      fixtureDeletedItem ∈ [fixtureDeletedItem]
      ∧ fixtureDeletedItem.isDeleted = true
      ∧ fixtureDeletedItem.db_id.isSome = true :=
  (reconcile_classification [fixtureDeletedItem] fixtureDeletedItem).1

/-! ## Session invariants -/

theorem applyUpdate_isNew (it : ExpenseItem) (u : ItemUpdate) :
    (applyUpdate it u).isNew = it.isNew := by
  unfold applyUpdate
  rcases u.category with _ | c
  · rfl
  · dsimp only
    split <;> rfl

theorem applyUpdate_isDeleted (it : ExpenseItem) (u : ItemUpdate) :
    (applyUpdate it u).isDeleted = it.isDeleted := by
  unfold applyUpdate
  rcases u.category with _ | c
  · rfl
  · dsimp only
    split <;> rfl

theorem applyUpdate_db_id (it : ExpenseItem) (u : ItemUpdate) :
    (applyUpdate it u).db_id = it.db_id := by
  unfold applyUpdate
  rcases u.category with _ | c
  · rfl
  · dsimp only
    split <;> rfl

/-- The invariant maintained across an edit session: a non-new item always
carries its persisted database id, and no item is ever both new and
deleted. -/
def SessionInv (l : List ExpenseItem) : Prop :=
  ∀ it ∈ l, (it.isNew = false → it.db_id.isSome = true)
    ∧ ¬(it.isNew = true ∧ it.isDeleted = true)

theorem editSession_inv {base l : List ExpenseItem} (h : EditSession base l) :
    SessionInv l := by
  induction h with
  | init hbase =>
    intro it hit
    obtain ⟨h1, h2, h3⟩ := hbase it hit
    exact ⟨fun _ => h3, by simp [h1]⟩
  | add freshId now _ ih =>
    intro it hit
    unfold addEditedExpense at hit
    rw [List.mem_append] at hit
    rcases hit with h1 | h2
    · exact ih it h1
    · simp only [List.mem_singleton] at h2
      subst h2
      exact ⟨by simp, by simp⟩
  | update id u _ ih =>
    intro it hit
    unfold updateEditedExpense at hit
    rw [List.mem_map] at hit
    obtain ⟨a, ha, heq⟩ := hit
    by_cases hid : a.id = id
    · rw [if_pos hid] at heq
      subst heq
      rw [applyUpdate_isNew, applyUpdate_isDeleted, applyUpdate_db_id]
      exact ih a ha
    · rw [if_neg hid] at heq
      subst heq
      exact ih a ha
  | remove id _ ih =>
    intro it hit
    unfold removeEditedExpense at hit
    rw [List.mem_filterMap] at hit
    obtain ⟨a, ha, hfa⟩ := hit
    by_cases hid : a.id = id
    · rw [if_pos hid] at hfa
      by_cases hnew : a.isNew
      · rw [if_pos hnew] at hfa
        exact absurd hfa (by simp)
      · rw [if_neg hnew] at hfa
        rw [Option.some_inj] at hfa
        subst hfa
        refine ⟨fun _ => (ih a ha).1 (by simpa using hnew), ?_⟩
        simp only [Bool.not_eq_true] at hnew
        simp [hnew]
    · rw [if_neg hid, Option.some_inj] at hfa
      subst hfa
      exact ih a ha

/-! ## Sum lemmas -/

theorem amountSum_foldl (l : List ExpenseItem) (s : Nat) :
    l.foldl (fun a it => a + it.amount) s = s + amountSum l := by
  induction l generalizing s with
  | nil => simp [amountSum]
  | cons it l ih =>
    have h1 : amountSum (it :: l) = it.amount + amountSum l := by
      show (it :: l).foldl (fun a x => a + x.amount) 0 = it.amount + amountSum l
      rw [List.foldl_cons, ih]
      omega
    rw [List.foldl_cons, ih, h1]
    omega

theorem amountSum_cons (it : ExpenseItem) (l : List ExpenseItem) :
    amountSum (it :: l) = it.amount + amountSum l := by
  show (it :: l).foldl (fun a x => a + x.amount) 0 = it.amount + amountSum l
  rw [List.foldl_cons, amountSum_foldl]
  omega

/-- The recomputed total splits into the updated and the inserted amounts:
every non-deleted item is either new (hence in `toInsert`) or persisted
(hence, carrying its database id, in `toUpdate`). -/
theorem newTotalCents_split (edited : List ExpenseItem)
    (hinv : ∀ it ∈ edited, it.isNew = false → it.db_id.isSome = true) :
    newTotalCents edited = amountSum (toUpdate edited) + amountSum (toInsert edited) := by
  induction edited with
  | nil => rfl
  | cons it l ih =>
    have hl : ∀ x ∈ l, x.isNew = false → x.db_id.isSome = true :=
      fun x hx => hinv x (List.mem_cons_of_mem it hx)
    have hit := hinv it (List.mem_cons_self it l)
    have ihl := ih hl
    unfold newTotalCents toUpdate toInsert at ihl ⊢
    rw [List.filter_cons, List.filter_cons, List.filter_cons]
    by_cases hd : it.isDeleted = true
    · simp only [hd]
      simpa using ihl
    · simp only [Bool.not_eq_true] at hd
      by_cases hn : it.isNew = true
      · simp [hd, hn, amountSum_cons, ihl]
        omega
      · simp only [Bool.not_eq_true] at hn
        have hdb := hit hn
        simp [hd, hn, hdb, amountSum_cons, ihl]
        omega

/-! ## Claim C2: the recomputed total -/

/-- C2: for every edited item list arising in an edit session, the
recomputed total (the sum of `amount` over the non-deleted edited items,
which is what `newTotalCents` computes) equals the sum of the `toUpdate`
amounts plus the sum of the `toInsert` amounts — so it excludes every
`toDelete` item and every discarded new-and-deleted item — and the save
persists exactly this total on the report. -/
theorem save_total (base edited : List ExpenseItem) (ul ia : Bool) (uid : String)
    (r : Report) (nok : Bool) (hsess : EditSession base edited)
    (hedit : canEdit ul ia uid r = true) :
    newTotalCents edited = amountSum (toUpdate edited) + amountSum (toInsert edited)
    ∧ savedTotal (handleSaveChanges ul ia uid r edited nok) = some (newTotalCents edited) := by
  refine ⟨newTotalCents_split edited (fun it hit => (editSession_inv hsess it hit).1), ?_⟩
  simp [handleSaveChanges, hedit, savedTotal]

/-- Witness for C2: the owner raises the single 500-cent item to 700 cents
and saves; the recomputed and persisted total is the split sum. -/
theorem save_total_witness :
    newTotalCents (updateEditedExpense [fixtureItem] "f1" { amount := some 700 })
      = amountSum (toUpdate (updateEditedExpense [fixtureItem] "f1" { amount := some 700 }))
        + amountSum (toInsert (updateEditedExpense [fixtureItem] "f1" { amount := some 700 }))
    ∧ savedTotal (handleSaveChanges false false "u1" fixtureReport
          (updateEditedExpense [fixtureItem] "f1" { amount := some 700 }) true)
        = some (newTotalCents (updateEditedExpense [fixtureItem] "f1" { amount := some 700 })) :=
  save_total [fixtureItem] _ false false "u1" fixtureReport true
    (EditSession.update "f1" { amount := some 700 }
      (EditSession.init [fixtureItem] (by decide)))
    (by decide)

/-! ## Claim C3: status transition on save -/

/-- C3: a save by a non-admin always persists status `submitted`
regardless of the prior status; a save by an admin persists the prior
status unchanged. -/
theorem save_status_transition (ul ia : Bool) (uid : String) (r : Report)
    (edited : List ExpenseItem) (nok : Bool) (hedit : canEdit ul ia uid r = true) :
    (ia = false →
      savedStatus (handleSaveChanges ul ia uid r edited nok) = some Status.submitted)
    ∧ (ia = true →
      savedStatus (handleSaveChanges ul ia uid r edited nok) = some r.status) := by
  constructor <;> intro hia <;> subst hia <;>
    simp [handleSaveChanges, hedit, savedStatus]

/-- Witness for C3: the owner saves a rejected report; the persisted
status is `submitted`. -/
theorem save_status_transition_witness :
    savedStatus (handleSaveChanges false false "u1" fixtureReport [fixtureItem] true)
      = some Status.submitted :=
  (save_status_transition false false "u1" fixtureReport [fixtureItem] true (by decide)).1 rfl

/-! ## Claim C10: no item is ever both new and deleted -/

/-- C10: starting from a fetched item list with no session flags, every
list reachable by the edit-session operations (`addEditedExpense`,
`updateEditedExpense`, `removeEditedExpense`) contains no item with both
`isNew` and `isDeleted` set: removing a same-session item drops it from
the list outright, while removing a persisted item only marks it. -/
theorem session_never_new_and_deleted (base l : List ExpenseItem)
    (h : EditSession base l) :
    ∀ it ∈ l, ¬(it.isNew = true ∧ it.isDeleted = true) :=
  fun it hit => (editSession_inv h it hit).2

/-- Witness for C10: a session that adds an item, removes it again, and
then removes the persisted item; the surviving (marked) item is not both
new and deleted. -/
theorem session_never_new_and_deleted_witness :
    ¬(fixtureDeletedItem.isNew = true ∧ fixtureDeletedItem.isDeleted = true) :=
  session_never_new_and_deleted [fixtureItem]
    (removeEditedExpense (removeEditedExpense (addEditedExpense [fixtureItem] "n1" 5) "n1") "f1")
    (EditSession.remove "f1" (EditSession.remove "n1" (EditSession.add "n1" 5
      (EditSession.init [fixtureItem] (by decide)))))
    fixtureDeletedItem (by decide)

/-! ## Claim C5: approve/reject only from `submitted` -/

/-- C5: on a report whose status is not `submitted`, an approve or reject
action is refused by the `canApproveReject` check: the handler returns the
permission-denied outcome and issues no update (the `updated` branch, the
only one that mutates the report, is not taken). -/
theorem approve_reject_nonsubmitted_denied (ul ia : Bool) (r : Report) (ns : Status)
    (h : r.status ≠ Status.submitted) :
    handleUpdateStatus ul ia r ns = StatusResult.permissionDenied := by
  have hs : decide (r.status = Status.submitted) = false := by simp [h]
  simp [handleUpdateStatus, canApproveReject, hs]

/-- Witness for C5: an admin calling approve on an already-approved report
is denied and nothing is updated. -/
theorem approve_reject_nonsubmitted_denied_witness :
    handleUpdateStatus false true fixtureReportApproved Status.approved
      = StatusResult.permissionDenied :=
  approve_reject_nonsubmitted_denied false true fixtureReportApproved Status.approved
    (by decide)

/-! ## Claim C6: delete-report permissions -/

/-- C6: an admin is never permitted to delete a report; the owner is
permitted exactly when the status is `submitted` or `rejected`; and any
disallowed attempt performs no deletion (the handler takes the `noAction`
branch). -/
theorem delete_permission (ul ia : Bool) (uid : String) (r : Report) (confirmed : Bool) :
    canDelete ul true uid r = false
    ∧ (ul = false → uid = r.user_id →
        (canDelete ul false uid r = true ↔
          (r.status = Status.submitted ∨ r.status = Status.rejected)))
    ∧ (canDelete ul ia uid r = false →
        handleDeleteReport ul ia uid r confirmed = DeleteResult.noAction) := by
  refine ⟨by simp [canDelete], ?_, ?_⟩
  · rintro rfl rfl
    simp [canDelete]
  · intro h
    simp [handleDeleteReport, h]

/-- Witness for C6: on the rejected fixture report, the admin cannot
delete (and the handler does nothing), while the owner's permission is
exactly the status condition. -/
theorem delete_permission_witness :
    canDelete false true "u1" fixtureReport = false
    ∧ (canDelete false false "u1" fixtureReport = true ↔
        (fixtureReport.status = Status.submitted ∨ fixtureReport.status = Status.rejected))
    ∧ handleDeleteReport false true "u1" fixtureReport true = DeleteResult.noAction := by
  have h := delete_permission false true "u1" fixtureReport true
  exact ⟨h.1, (delete_permission false false "u1" fixtureReport true).2.1 rfl rfl,
    h.2.2 h.1⟩

/-! ## Claim C7: the notification trigger -/

/-- C7: on a permitted save, the notification collaborator is invoked
(with the report id) exactly when the actor is a non-admin owner and the
persisted status is `submitted`; the save succeeds and issues the same
persistence calls whatever the notification outcome; and a warning is
attached exactly when the notification was invoked and failed. -/
theorem save_notification (ul ia : Bool) (uid : String) (r : Report)
    (edited : List ExpenseItem) (nok : Bool) (hedit : canEdit ul ia uid r = true) :
    (savedNotify (handleSaveChanges ul ia uid r edited nok) = some r.id ↔
      (ia = false ∧ r.user_id = uid
        ∧ savedStatus (handleSaveChanges ul ia uid r edited nok) = some Status.submitted))
    ∧ isSaved (handleSaveChanges ul ia uid r edited nok) = true
    ∧ savedCalls (handleSaveChanges ul ia uid r edited nok)
        = savedCalls (handleSaveChanges ul ia uid r edited true)
    ∧ (savedWarning (handleSaveChanges ul ia uid r edited nok) = true ↔
        ((savedNotify (handleSaveChanges ul ia uid r edited nok)).isSome ∧ nok = false)) := by
  cases ia
  · by_cases hu : r.user_id = uid <;> cases nok <;>
      simp [handleSaveChanges, hedit, savedNotify, savedStatus, savedCalls,
        savedWarning, isSaved, hu]
  · cases nok <;>
      simp [handleSaveChanges, hedit, savedNotify, savedStatus, savedCalls,
        savedWarning, isSaved]

/-- Witness for C7: the owner saves a rejected report while the
notification collaborator fails: the notification was invoked with the
report id, the save still succeeds, and a warning is attached. -/
theorem save_notification_witness :
    savedNotify (handleSaveChanges false false "u1" fixtureReport [fixtureItem] false)
      = some fixtureReport.id
    ∧ isSaved (handleSaveChanges false false "u1" fixtureReport [fixtureItem] false) = true
    ∧ savedWarning (handleSaveChanges false false "u1" fixtureReport [fixtureItem] false)
      = true := by
  have h := save_notification false false "u1" fixtureReport [fixtureItem] false (by decide)
  exact ⟨h.1.mpr ⟨rfl, rfl, by decide⟩, h.2.1, h.2.2.2.mpr (by decide)⟩

/-! ## Claim C4: saving with zero remaining items

The claim says a save with zero non-deleted items fails with a
`ValidationError` and performs no persistence calls.  The code has no such
validation: the only guard is the *disabled save button*
(`disabled={isSaving || editedItems.filter(i => !i.isDeleted).length === 0}`),
and `handleSaveChanges` itself, invoked in such a state, issues the
deletions and persists a zero total. -/

/-- Counterexample to C4 as stated: an owner session whose single item is
marked deleted (zero non-deleted items).  `handleSaveChanges` does not
fail with a validation error — it completes and issues persistence calls
(the deletion of `"db1"` and a report update to total 0, status
`submitted`). -/
theorem save_zero_items_counterexample :
    (([fixtureDeletedItem].filter fun it => !it.isDeleted).length = 0)
    ∧ isSaved (handleSaveChanges false false "u1" fixtureReport [fixtureDeletedItem] true)
      = true
    ∧ savedCalls (handleSaveChanges false false "u1" fixtureReport [fixtureDeletedItem] true)
      = some
          { deletedIds := ["db1"], updatedRows := [], insertedRows := [],
            reportUpdate := some (0, Status.submitted) } := by
  decide

/-- C4 as amended: whenever the non-deleted item count is zero the save
button is disabled, so the save cannot be attempted from the UI; and if
`handleSaveChanges` were invoked anyway it would not validate — a
permitted call persists a report total of 0. -/
theorem save_zero_items_ui_guard (isSaving ul ia : Bool) (uid : String) (r : Report)
    (edited : List ExpenseItem) (nok : Bool)
    (h : (edited.filter fun it => !it.isDeleted).length = 0) :
    saveButtonDisabled isSaving edited = true
    ∧ (canEdit ul ia uid r = true →
        savedTotal (handleSaveChanges ul ia uid r edited nok) = some 0) := by
  constructor
  · simp [saveButtonDisabled, h]
  · intro hedit
    have hfil : (edited.filter fun it => !it.isDeleted) = [] := List.length_eq_zero.mp h
    have htot : newTotalCents edited = 0 := by
      unfold newTotalCents
      rw [hfil]
      rfl
    simp [handleSaveChanges, hedit, savedTotal, htot]

/-- Witness for the amended C4: with the single fixture item marked
deleted, the save button is disabled, and a direct permitted call would
persist total 0. -/
theorem save_zero_items_ui_guard_witness :
    saveButtonDisabled false [fixtureDeletedItem] = true
    ∧ savedTotal (handleSaveChanges false false "u1" fixtureReport [fixtureDeletedItem] true)
      = some 0 := by
  have h := save_zero_items_ui_guard false false false "u1" fixtureReport
    [fixtureDeletedItem] true (by decide)
  exact ⟨h.1, h.2 (by decide)⟩

end ExpenseReportApp
